import Mathlib

/-!
Verification development for the `jsonnet-exporter` probe exporter
(`src/main.rs`).  The pure core of the program — the metric-manifest
decoder, the exposition renderer, the probe request state machine, the
native `regexMatch` callback and the in-memory import resolver — is
shallowly embedded below; external collaborators (the jsonnet
evaluator, the HTTP client, the JSON parser of `serde_json`) appear as
explicit oracles that each theorem quantifies over or instantiates.

Modelling conventions:
* JSON numbers are modelled as integers (`Int`); no property checked
  here depends on non-integral values.
* Rust `Result` is `Except`; a reachable `unwrap`/`panic!` in the
  source is modelled by an explicit `panicked` constructor of the
  corresponding outcome type, so that "returns an error" and "panics"
  are distinguishable.
* The `prometheus` crate is not part of this repository's sources;
  its behaviour at the call sites used by `Module::eval` is modelled
  from the spec (§4.2): building a gauge vector with declared label
  names, a duplicate-name check at registration, a label-arity check
  when a sample is set, and the deterministic text exposition
  (families emitted in a canonical order by metric name, series in
  insertion order).
-/

namespace JsonnetExporter

/-- A JSON document, as produced by the evaluator's manifestation and
consumed by `serde_json`.  Objects are ordered association lists;
numbers are modelled as integers (see the header comment). -/
inductive Json where
  | null
  | bool (b : Bool)
  | num (n : Int)
  | str (s : String)
  | arr (elems : List Json)
  | obj (fields : List (String × Json))

/-- First-match association-list lookup, modelling both
`HashMap::get` and `serde` field lookup in a JSON object. -/
def alookup {α : Type} (key : String) : List (String × α) → Option α
  | [] => none
  | (k, v) :: rest => if k = key then some v else alookup key rest

/-- `MetricType` from `src/main.rs` (serde rename: `"gauge"`). -/
inductive MetricType where
  | Gauge
deriving DecidableEq

/-- `Series` from `src/main.rs`: optional `label_values`, required
numeric `value`. -/
structure Series where
  label_values : Option (List String)
  value : Int
deriving DecidableEq

/-- `Metric` from `src/main.rs`: optional `label_names`, `series`
defaulting to the empty vector, optional `help`, required `type`. -/
structure Metric where
  label_names : Option (List String)
  series : List Series
  help : Option String
  type : MetricType
deriving DecidableEq

/-- Decode errors of the manifest decoder (the `serde_json::from_str`
call in `Module::eval`). -/
inductive DecodeError where
  | notAnObject
  | missingField (field : String)
  | invalidFieldType (field : String)
  | unknownMetricType (found : String)
  | invalidValue
deriving DecidableEq

def decodeStringList (field : String) : List Json → Except DecodeError (List String)
  | [] => .ok []
  | j :: rest =>
    match j with
    | .str s => (decodeStringList field rest).map (s :: ·)
    | _ => .error (.invalidFieldType field)

/-- serde decoding of an `Option<Vec<String>>` field: absent or
`null` means `None`. -/
def decodeOptStringList (field : String) : Option Json → Except DecodeError (Option (List String))
  | none => .ok none
  | some .null => .ok none
  | some (.arr xs) => (decodeStringList field xs).map some
  | some _ => .error (.invalidFieldType field)

/-- serde decoding of an `Option<String>` field. -/
def decodeOptString (field : String) : Option Json → Except DecodeError (Option String)
  | none => .ok none
  | some .null => .ok none
  | some (.str s) => .ok (some s)
  | some _ => .error (.invalidFieldType field)

/-- Decoding of the required `type` field: only the string `"gauge"`
is a known kind. -/
def decodeMetricType : Option Json → Except DecodeError MetricType
  | none => .error (.missingField "type")
  | some (.str s) => if s = "gauge" then .ok .Gauge else .error (.unknownMetricType s)
  | some _ => .error (.invalidFieldType "type")

/-- Decoding of the required numeric `value` of a series; missing or
non-numeric is an invalid-value error (spec §4.1). -/
def decodeSeriesValue : Option Json → Except DecodeError Int
  | some (.num n) => .ok n
  | some _ => .error .invalidValue
  | none => .error .invalidValue

def decodeSeries : Json → Except DecodeError Series
  | .obj fs =>
    match decodeOptStringList "label_values" (alookup "label_values" fs) with
    | .error e => .error e
    | .ok lv =>
      match decodeSeriesValue (alookup "value" fs) with
      | .error e => .error e
      | .ok v => .ok ⟨lv, v⟩
  | _ => .error (.invalidFieldType "series")

def decodeSeriesList : List Json → Except DecodeError (List Series)
  | [] => .ok []
  | j :: rest =>
    match decodeSeries j with
    | .error e => .error e
    | .ok s =>
      match decodeSeriesList rest with
      | .error e => .error e
      | .ok t => .ok (s :: t)

/-- The `series` field with `#[serde(default)]`: absent means the
empty vector. -/
def decodeSeriesField : Option Json → Except DecodeError (List Series)
  | none => .ok []
  | some (.arr xs) => decodeSeriesList xs
  | some _ => .error (.invalidFieldType "series")

/-- Decoding one `Metric` value from its JSON object. -/
def decodeMetric : Json → Except DecodeError Metric
  | .obj fs =>
    match decodeMetricType (alookup "type" fs) with
    | .error e => .error e
    | .ok t =>
      match decodeOptStringList "label_names" (alookup "label_names" fs) with
      | .error e => .error e
      | .ok ln =>
        match decodeSeriesField (alookup "series" fs) with
        | .error e => .error e
        | .ok sr =>
          match decodeOptString "help" (alookup "help" fs) with
          | .error e => .error e
          | .ok h => .ok ⟨ln, sr, h, t⟩
  | _ => .error .notAnObject

/-- `HashMap::insert` on an association list: a duplicate key
replaces the stored value, otherwise the binding is appended. -/
def insertMetric (name : String) (m : Metric) : List (String × Metric) → List (String × Metric)
  | [] => [(name, m)]
  | (k, v) :: rest => if k = name then (k, m) :: rest else (k, v) :: insertMetric name m rest

def decodeMetricsGo (acc : List (String × Metric)) :
    List (String × Json) → Except DecodeError (List (String × Metric))
  | [] => .ok acc
  | (name, j) :: rest =>
    match decodeMetric j with
    | .error e => .error e
    | .ok m => decodeMetricsGo (insertMetric name m acc) rest

/-- `Metrics` decoding (`serde_json::from_str::<Metrics>`): the
document must be an object; each entry is decoded as a `Metric` and
inserted into a map keyed by metric name. -/
def decodeMetrics : Json → Except DecodeError (List (String × Metric))
  | .obj fs => decodeMetricsGo [] fs
  | _ => .error .notAnObject

/-! ## Exposition renderer

The rendering loop of `Module::eval` (src/main.rs lines 379–418),
with the `prometheus` crate surface modelled from the spec (§4.2):
gauge-vector construction, a duplicate-name check at registration, a
label-arity check per sample, and the text exposition. -/

/-- The fixed placeholder help text substituted when `help` is absent
(src/main.rs line 394). -/
def placeholderHelp : String :=
  "jsonnet-exporter: Metric help is missing, consider adding a help text to the module config."

/-- One rendered metric family: the gauge vector together with the
samples set on it. -/
structure Family where
  name : String
  help : String
  labelNames : List String
  series : List (List String × Int)
deriving DecidableEq

/-- Setting a sample on a gauge vector: a repeated label-value tuple
overwrites the previously set value, a fresh tuple is appended. -/
def upsertSample (key : List String) (v : Int) :
    List (List String × Int) → List (List String × Int)
  | [] => [(key, v)]
  | (k, w) :: rest => if k = key then (k, v) :: rest else (k, w) :: upsertSample key v rest

def buildSamples (l : List Series) : List (List String × Int) :=
  l.foldl (fun acc s => upsertSample (s.label_values.getD []) s.value acc) []

/-- The family built for one decoded metric: absent `help` becomes
the placeholder, absent `label_names` the empty list (src/main.rs
lines 386–396). -/
def buildFamily (name : String) (m : Metric) : Family :=
  { name := name
    help := m.help.getD placeholderHelp
    labelNames := m.label_names.getD []
    series := buildSamples m.series }

def seriesAritiesOk (n : Nat) : List Series → Bool
  | [] => true
  | s :: rest => if (s.label_values.getD []).length = n then seriesAritiesOk n rest else false

/-- Every series of the metric carries exactly as many label values
as the metric declares label names (both treated as empty when
absent). -/
def seriesArityOk (m : Metric) : Bool :=
  seriesAritiesOk (m.label_names.getD []).length m.series

/-- Render-time errors (spec §4.2). -/
inductive RenderError where
  | labelArityMismatch (metric : String)
  | duplicateMetricName (metric : String)
deriving DecidableEq

def hasName (name : String) : List Family → Bool
  | [] => false
  | f :: rest => if f.name = name then true else hasName name rest

/-- The rendering loop over the decoded metric map: register each
gauge vector (duplicate names are an error), then set one sample per
series (a label-arity mismatch is an error). -/
def renderGo : List (String × Metric) → List Family → Except RenderError (List Family)
  | [], acc => .ok acc
  | (name, m) :: rest, acc =>
    if hasName name acc then
      .error (.duplicateMetricName name)
    else if seriesArityOk m then
      renderGo rest (acc ++ [buildFamily name m])
    else
      .error (.labelArityMismatch name)

/-- Computable lexicographic comparison of character lists (by code
point), used for the canonical family order. -/
def charListLe : List Char → List Char → Bool
  | [], _ => true
  | _ :: _, [] => false
  | a :: as, b :: bs =>
    if a.toNat < b.toNat then true
    else if b.toNat < a.toNat then false
    else charListLe as bs

def strLe (a b : String) : Bool := charListLe a.data b.data

def insertFam (f : Family) : List Family → List Family
  | [] => [f]
  | g :: rest => if strLe f.name g.name then f :: g :: rest else g :: insertFam f rest

/-- Ordering of families by metric name, the canonical gather
order. -/
def famLe (a b : Family) : Prop := strLe a.name b.name = true

/-- Canonical gathering order of the registry: metric families sorted
by name (insertion sort). -/
def sortFams : List Family → List Family
  | [] => []
  | f :: rest => insertFam f (sortFams rest)

def joinComma : List String → String
  | [] => ""
  | [s] => s
  | s :: rest => s ++ "," ++ joinComma rest

def concatAll : List String → String
  | [] => ""
  | [s] => s
  | s :: rest => s ++ concatAll rest

/-- The `\x7blabel="value",...\x7d` block of a sample line; omitted
when the metric declares no labels. -/
def labelBlock (names vals : List String) : String :=
  if names.isEmpty then ""
  else "\x7b" ++ joinComma ((names.zip vals).map fun p => p.1 ++ "=\"" ++ p.2 ++ "\"") ++ "\x7d"

def encodeSample (famName : String) (names : List String) (p : List String × Int) : String :=
  famName ++ labelBlock names p.1 ++ " " ++ toString p.2 ++ "\n"

/-- The `# TYPE` line and the sample lines of one family. -/
def familyTail (f : Family) : String :=
  "# TYPE " ++ f.name ++ " gauge\n" ++
    concatAll (f.series.map (encodeSample f.name f.labelNames))

/-- Text exposition of one family: `# HELP`, `# TYPE`, then one
sample line per series. -/
def encodeFamily (f : Family) : String :=
  "# HELP " ++ f.name ++ " " ++ f.help ++ "\n" ++ familyTail f

def encodeFamilies (fams : List Family) : String :=
  concatAll ((sortFams fams).map encodeFamily)

/-- `render`: the decode result of `Module::eval` turned into
Prometheus text exposition. -/
def render (l : List (String × Metric)) : Except RenderError String :=
  (renderGo l []).map encodeFamilies

def DecodeError.message : DecodeError → String
  | .notAnObject => "decode error: the manifest document is not an object"
  | .missingField f => "decode error: missing field " ++ f
  | .invalidFieldType f => "decode error: invalid type for field " ++ f
  | .unknownMetricType s => "decode error: unknown metric type " ++ s
  | .invalidValue => "decode error: invalid series value"

def RenderError.message : RenderError → String
  | .labelArityMismatch m => "render error: label arity mismatch in metric " ++ m
  | .duplicateMetricName m => "render error: duplicate metric name " ++ m

/-- The decode-and-render tail of `Module::eval`, starting from the
manifested JSON document. -/
def pipelineRender (doc : Json) : Except String String :=
  match decodeMetrics doc with
  | .error e => .error e.message
  | .ok m =>
    match render m with
    | .error e => .error e.message
    | .ok s => .ok s

/-! ## JSON serialization

`serde_json::to_string` for the `InputData` envelope (the handler's
`BuildInput` stage).  `serde_json` is an external collaborator; the
encoder below follows the standard JSON text form it produces. -/

def escapeChar (c : Char) : String :=
  if c = '"' then "\\\""
  else if c = '\\' then "\\\\"
  else if c = '\n' then "\\n"
  else if c = '\t' then "\\t"
  else if c = '\r' then "\\r"
  else String.mk [c]

def escapeStr (s : String) : String :=
  concatAll (s.data.map escapeChar)

mutual

def Json.serialize : Json → String
  | .null => "null"
  | .bool b => if b then "true" else "false"
  | .num n => toString n
  | .str s => "\"" ++ escapeStr s ++ "\""
  | .arr xs => "[" ++ serializeElems xs ++ "]"
  | .obj fs => "\x7b" ++ serializeFields fs ++ "\x7d"

def serializeElems : List Json → String
  | [] => ""
  | [j] => Json.serialize j
  | j :: rest => Json.serialize j ++ "," ++ serializeElems rest

def serializeFields : List (String × Json) → String
  | [] => ""
  | [(k, j)] => "\"" ++ escapeStr k ++ "\":" ++ Json.serialize j
  | (k, j) :: rest =>
    "\"" ++ escapeStr k ++ "\":" ++ Json.serialize j ++ "," ++ serializeFields rest

end

/-- `serde_json::to_string(&InputData { body })`: the runtime-input
envelope handed to the module's entry point. -/
def serializeInput (body : Json) : String :=
  Json.serialize (.obj [("body", body)])

/-! ## Module evaluation

`Module::eval` (src/main.rs lines 350–419).  The embedded jsonnet
evaluator is an external collaborator (spec §1, §4.3): the external
binding, snippet evaluation and manifestation are collapsed into one
oracle `engine : String → Except String Json` mapping the serialized
runtime input to the manifested JSON document (or a diagnostic).  The
decode and render stages are the embedded functions above. -/

def moduleEval (engine : String → Except String Json) (input : String) :
    Except String String :=
  match engine input with
  | .error e => .error ("err " ++ e)
  | .ok doc =>
    match decodeMetrics doc with
    | .error e => .error e.message
    | .ok m =>
      match render m with
      | .error e => .error e.message
      | .ok s => .ok s

/-- The runtime face of one `ConfigModule`: its two optional source
fields, the outcome of loading/compiling its program (`File::open` +
`EvaluationState::add_file`, opaque), and the opaque evaluator for
its program. -/
structure ConfigModuleRt where
  jsonnet : Option String
  jsonnet_path : Option String
  compileOk : Except String Unit
  engine : String → Except String Json

/-- `ConfigModule::state` (src/main.rs lines 127–201): exactly one of
`jsonnet`/`jsonnet_path` must be set; then the program is loaded. -/
def moduleState (m : ConfigModuleRt) : Except String Unit :=
  match m.jsonnet, m.jsonnet_path with
  | some _, some _ => .error "Only one of 'jsonnet' and 'jsonnet_path' can be set"
  | none, none => .error "One of 'jsonnet' or 'jsonnet_path' has to be set"
  | _, _ => m.compileOk

/-- `module.state()` followed by `.eval(&data)`, the two fallible
calls the probe handler unwraps (src/main.rs line 515). -/
def runModule (m : ConfigModuleRt) (input : String) : Except String String :=
  match moduleState m with
  | .error e => .error e
  | .ok _ => moduleEval m.engine input

/-! ## Probe orchestrator

`App::probe_handler` (src/main.rs lines 447–518).  The HTTP client,
URI parser and `serde_json` body parser are oracles in `ProbeEnv`.
The handler's outcome distinguishes a success body, a typed rejection
(turned into an HTTP error response), and a panic (`unwrap` on an
`Err`).  The second component records whether the target fetch was
issued. -/

/-- The fetched response body.  The raw bytes are external; the model
records the outcome of reading them as a string (`read_to_string`):
`utf8` is the decoded string when the bytes are valid UTF-8 and
`none` otherwise — in which case the `read_to_string(..).unwrap()` of
the non-JSON branch (src/main.rs line 506) is a host panic. -/
structure HttpBody where
  utf8 : Option String

structure HttpResp where
  contentType : Option String
  body : HttpBody

structure ProbeEnv where
  validUri : String → Bool
  fetch : String → Except String HttpResp
  jsonParse : HttpBody → Option Json

/-- `ProbeError` from `src/main.rs`. -/
inductive ProbeErrorK where
  | missingParameter (name : String)
  | moduleNotFound (name : String)
  | invalidTargetUrl
  | targetHTTP
  | targetJSONParse
deriving DecidableEq

inductive Outcome where
  | ok (body : String)
  | reject (e : ProbeErrorK)
  | panicked (msg : String)
deriving DecidableEq

def Outcome.isPanic : Outcome → Bool
  | .panicked _ => true
  | _ => false

/-- Outcome of the `BuildInput` stage: a runtime-input value, a JSON
parse failure (rejected as `TargetJSONParse`), or the host panic of
`read_to_string(..).unwrap()` on a non-UTF-8 body. -/
inductive BuildOutcome where
  | ok (v : Json)
  | parseErr
  | panicked

/-- The `BuildInput` stage (src/main.rs lines 497–509): a body
declared exactly `application/json` is parsed as JSON from its raw
bytes (failure is `TargetJSONParse`); any other body is read with
`read_to_string` — unwrapped, so a panic on non-UTF-8 bytes — and
becomes one JSON string value. -/
def buildInputBody (env : ProbeEnv) (resp : HttpResp) : BuildOutcome :=
  match resp.contentType with
  | some ct =>
    if ct = "application/json" then
      match env.jsonParse resp.body with
      | none => .parseErr
      | some v => .ok v
    else
      match resp.body.utf8 with
      | none => .panicked
      | some s => .ok (.str s)
  | none =>
    match resp.body.utf8 with
    | none => .panicked
    | some s => .ok (.str s)

/-- `App::probe_handler`: resolve the `module` parameter, look the
module up, read the `target` parameter, parse the target URI, fetch
it, build the runtime input (where `read_to_string(..).unwrap()` can
panic on a non-UTF-8 body), then run
`module.state().unwrap().eval(&data).unwrap()`.  The Boolean is true
iff the handler issued the target fetch. -/
def probeHandler (env : ProbeEnv) (modules : List (String × ConfigModuleRt))
    (params : List (String × String)) : Outcome × Bool :=
  match alookup "module" params with
  | none => (.reject (.missingParameter "module"), false)
  | some moduleName =>
    match alookup moduleName modules with
    | none => (.reject (.moduleNotFound moduleName), false)
    | some m =>
      match alookup "target" params with
      | none => (.reject (.missingParameter "target"), false)
      | some target =>
        if env.validUri target then
          match env.fetch target with
          | .error _ => (.reject .targetHTTP, true)
          | .ok resp =>
            match buildInputBody env resp with
            | .parseErr => (.reject .targetJSONParse, true)
            | .panicked => (.panicked "stream did not contain valid UTF-8", true)
            | .ok jsonBody =>
              match runModule m (serializeInput jsonBody) with
              | .error e => (.panicked e, true)
              | .ok s => (.ok s, true)
        else (.reject .invalidTargetUrl, false)

/-! ## In-memory import resolver

`MemoryImportResolver` (src/main.rs lines 94–124).  `PathBuf`s are
modelled as strings.  Each operation's outcome separates a structured
not-found error from a host panic. -/

structure MemoryImportResolver where
  path : String
  code : String

inductive ResolveOutcome where
  | resolved (path : String)
  | importNotFound (importer target : String)
  | panicked
deriving DecidableEq

inductive LoadOutcome where
  | loaded (code : String)
  | importNotFound (importer target : String)
  | panicked
deriving DecidableEq

/-- `resolve_file`: only the single stored path resolves; everything
else is a structured `ImportFileNotFound` error. -/
def MemoryImportResolver.resolve_file (r : MemoryImportResolver)
    (importer target : String) : ResolveOutcome :=
  if target = r.path then .resolved r.path else .importNotFound importer target

/-- `load_file_contents`: the source body is
`panic!("dummy resolver can't load any file")` on every input. -/
def MemoryImportResolver.load_file_contents (_r : MemoryImportResolver)
    (_resolved : String) : LoadOutcome :=
  .panicked

/-! ## The native `regexMatch` callback

The `NativeCallback` bound as `regexMatch` (src/main.rs lines
131–161).  The `regex` crate is an external collaborator; a small
matching engine sufficient for the patterns the claims exercise is
modelled from the spec (§4.3): leftmost-first matching, non-overlapping
iteration, per-group captured substring or null.  The callback wrapper
itself — `Regex::new(pattern).unwrap()` followed by mapping every
capture group to a string or null — is embedded from the source. -/

/-- Regular-expression abstract syntax for the modelled subset:
literal characters, numbered groups, and the greedy `?` quantifier. -/
inductive RE where
  | eps
  | ch (c : Char)
  | seq (a b : RE)
  | group (n : Nat) (r : RE)
  | opt (r : RE)

/-- Spans of the groups captured so far (group index, start, end);
the most recent binding of a group shadows older ones. -/
def GroupSpans : Type := List (Nat × Nat × Nat)

def lookupGroup (n : Nat) : List (Nat × Nat × Nat) → Option (Nat × Nat)
  | [] => none
  | (g, a, b) :: rest => if g = n then some (a, b) else lookupGroup n rest

/-- Backtracking matcher: all ways to match `r` in `s` starting at
`i`, in preference order (greedy `?` first), each with its end
position and captured spans. -/
def mmatch : RE → List Char → Nat → List (Nat × Nat × Nat) → List (Nat × List (Nat × Nat × Nat))
  | .eps, _, i, gs => [(i, gs)]
  | .ch c, s, i, gs =>
    match s[i]? with
    | some c2 => if c2 = c then [(i + 1, gs)] else []
    | none => []
  | .seq a b, s, i, gs => (mmatch a s i gs).flatMap fun p => mmatch b s p.1 p.2
  | .group n r, s, i, gs => (mmatch r s i gs).map fun p => (p.1, (n, i, p.1) :: p.2)
  | .opt r, s, i, gs => mmatch r s i gs ++ [(i, gs)]

/-- The leftmost match at or after position `i`:
(start, end, captured spans). -/
def findFrom (re : RE) (s : List Char) : Nat → Nat → Option (Nat × Nat × List (Nat × Nat × Nat))
  | 0, _ => none
  | fuel + 1, i =>
    match (mmatch re s i []).head? with
    | some p => some (i, p.1, p.2)
    | none => if s.length ≤ i then none else findFrom re s fuel (i + 1)

def sliceStr (s : List Char) (a b : Nat) : String :=
  String.mk ((s.drop a).take (b - a))

/-- The capture list of one match: group 0 is the whole match, every
other group either its captured substring or the null marker. -/
def buildCaps (s : List Char) (numGroups i j : Nat)
    (gs : List (Nat × Nat × Nat)) : List (Option String) :=
  (List.range numGroups).map fun n =>
    if n = 0 then some (sliceStr s i j)
    else (lookupGroup n gs).map fun p => sliceStr s p.1 p.2

/-- `captures_iter`: non-overlapping matches from left to right; an
empty match advances the scan position by one. -/
def capturesLoop (re : RE) (s : List Char) (numGroups : Nat) :
    Nat → Nat → List (List (Option String))
  | 0, _ => []
  | fuel + 1, pos =>
    match findFrom re s (s.length + 1 - pos) pos with
    | none => []
    | some (i, j, gs) =>
      buildCaps s numGroups i j gs ::
        capturesLoop re s numGroups fuel (if j = i then i + 1 else j)

def regexCaptures (re : RE) (numGroups : Nat) (subject : String) :
    List (List (Option String)) :=
  capturesLoop re subject.data numGroups (subject.data.length + 2) 0

/-- Pattern parser for the modelled subset: a sequence of atoms,
where an atom is a literal character or a parenthesised group, each
optionally followed by `?`.  Returns the parsed tail, the unconsumed
input and the next free group number; a dangling quantifier or an
unterminated group fails. -/
def parseSeq : Nat → List Char → Nat → Option (RE × List Char × Nat)
  | 0, _, _ => none
  | fuel + 1, cs, g =>
    match cs with
    | [] => some (.eps, [], g)
    | ')' :: _ => some (.eps, cs, g)
    | '?' :: _ => none
    | '*' :: _ => none
    | '+' :: _ => none
    | '(' :: rest =>
      match parseSeq fuel rest (g + 1) with
      | some (inner, ')' :: rest2, g2) =>
        match rest2 with
        | '?' :: rest3 =>
          (parseSeq fuel rest3 g2).map fun p => (.seq (.opt (.group g inner)) p.1, p.2)
        | _ =>
          (parseSeq fuel rest2 g2).map fun p => (.seq (.group g inner) p.1, p.2)
      | _ => none
    | c :: rest =>
      match rest with
      | '?' :: rest2 =>
        (parseSeq fuel rest2 g).map fun p => (.seq (.opt (.ch c)) p.1, p.2)
      | _ =>
        (parseSeq fuel rest g).map fun p => (.seq (.ch c) p.1, p.2)

/-- `Regex::new`: compile a pattern, yielding the syntax tree and the
total number of groups (group 0 included); `none` on an invalid
pattern such as an unterminated group. -/
def compilePattern (pattern : String) : Option (RE × Nat) :=
  match parseSeq (pattern.data.length + 1) pattern.data 1 with
  | some (re, [], g) => some (re, g)
  | _ => none

/-- Outcome of one invocation of the native callback: a capture list,
an evaluation error returned to the engine, or a host panic. -/
inductive NativeOutcome where
  | ok (results : List (List (Option String)))
  | err (msg : String)
  | panicked
deriving DecidableEq

/-- The `regexMatch` native callback body: `Regex::new(regex).unwrap()`
(a host panic on an invalid pattern), then one inner array per
non-overlapping match, holding per capture group the substring or
null. -/
def regexMatchNative (pattern subject : String) : NativeOutcome :=
  match compilePattern pattern with
  | none => .panicked
  | some (re, numGroups) => .ok (regexCaptures re numGroups subject)

/-- Does the native callback return through the engine's error
channel (as opposed to succeeding or panicking)? -/
def NativeOutcome.isErrResult : NativeOutcome → Bool
  | .err _ => true
  | _ => false

/-! ## Concrete instances used by witnesses and counterexamples -/

/-- An environment whose target fetch succeeds with a plain UTF-8
text body. -/
def c1Env : ProbeEnv :=
  { validUri := fun _ => true
    fetch := fun _ => .ok { contentType := none, body := ⟨some "hello"⟩ }
    jsonParse := fun _ => none }

/-- An environment whose target fetch succeeds with a non-UTF-8,
non-JSON body. -/
def c1EnvBad : ProbeEnv :=
  { validUri := fun _ => true
    fetch := fun _ => .ok { contentType := none, body := ⟨none⟩ }
    jsonParse := fun _ => none }

/-- An inline module whose program evaluation fails. -/
def c1Module : ConfigModuleRt :=
  { jsonnet := some "x", jsonnet_path := none, compileOk := .ok ()
    engine := fun _ => .error "boom" }

def c2Env : ProbeEnv :=
  { validUri := fun _ => true
    fetch := fun _ => .error "unreachable"
    jsonParse := fun _ => none }

/-- An inline module whose program evaluation yields an empty metric
document. -/
def c2Module : ConfigModuleRt :=
  { jsonnet := some "x", jsonnet_path := none, compileOk := .ok ()
    engine := fun _ => .ok (.obj []) }

def c3Env : ProbeEnv :=
  { validUri := fun _ => true
    fetch := fun _ => .ok { contentType := none, body := ⟨some "x"⟩ }
    jsonParse := fun _ => none }

def c4OkDoc : Json :=
  .obj [("ok_metric", .obj [("type", .str "gauge"), ("help", .str "h"),
    ("series", .arr [.obj [("value", .num 1)]])])]

def c4OkM : List (String × Metric) :=
  [("ok_metric", ⟨none, [⟨none, 1⟩], some "h", .Gauge⟩)]

def c4BadDoc : Json :=
  .obj [("bad_metric", .obj [("type", .str "gauge"),
    ("label_names", .arr [.str "l"]),
    ("series", .arr [.obj [("value", .num 1)]])])]

def c4BadM : List (String × Metric) :=
  [("bad_metric", ⟨some ["l"], [⟨none, 1⟩], none, .Gauge⟩)]

def c9MA : Metric := ⟨none, [⟨none, 1⟩], some "h1", .Gauge⟩

def c9MB : Metric := ⟨none, [⟨none, 2⟩], some "h2", .Gauge⟩

/-- A two-metric document, listed in reverse name order. -/
def c9Doc : Json :=
  .obj [
    ("b_metric", .obj [("type", .str "gauge"), ("help", .str "h2"),
      ("series", .arr [.obj [("value", .num 2)]])]),
    ("a_metric", .obj [("type", .str "gauge"), ("help", .str "h1"),
      ("series", .arr [.obj [("value", .num 1)]])])]

/-! ## Helper lemmas -/

/-- The key sequence of an association list. -/
def keysOf {α : Type} (l : List (String × α)) : List String := l.map Prod.fst

theorem keysOf_insertMetric (name : String) (m : Metric) :
    ∀ l, keysOf (insertMetric name m l) =
      if name ∈ keysOf l then keysOf l else keysOf l ++ [name] := by
  intro l
  induction l with
  | nil => simp [insertMetric, keysOf]
  | cons p rest ih =>
    obtain ⟨k, v⟩ := p
    by_cases hk : k = name
    · subst hk
      simp [insertMetric, keysOf]
    · simp only [insertMetric, if_neg hk, keysOf, List.map_cons]
      rw [show List.map Prod.fst (insertMetric name m rest)
            = keysOf (insertMetric name m rest) from rfl, ih]
      simp only [keysOf]
      by_cases hmem : name ∈ List.map Prod.fst rest
      · rw [if_pos hmem, if_pos (List.mem_cons.mpr (Or.inr hmem))]
      · rw [if_neg hmem, if_neg (by simp [List.mem_cons, Ne.symm hk, hmem])]
        simp [List.cons_append]

theorem nodup_keysOf_insertMetric (name : String) (m : Metric) (l : List (String × Metric))
    (h : (keysOf l).Nodup) : (keysOf (insertMetric name m l)).Nodup := by
  rw [keysOf_insertMetric]
  by_cases hmem : name ∈ keysOf l
  · rw [if_pos hmem]; exact h
  · rw [if_neg hmem]
    simp [List.nodup_append, h, hmem]

theorem decodeMetricsGo_nodup :
    ∀ (fs : List (String × Json)) (acc m : List (String × Metric)),
      (keysOf acc).Nodup → decodeMetricsGo acc fs = .ok m → (keysOf m).Nodup := by
  intro fs
  induction fs with
  | nil =>
    intro acc m hacc h
    simp only [decodeMetricsGo] at h
    cases h
    exact hacc
  | cons p rest ih =>
    intro acc m hacc h
    obtain ⟨name, j⟩ := p
    simp only [decodeMetricsGo] at h
    cases hdm : decodeMetric j with
    | error e => rw [hdm] at h; cases h
    | ok mm =>
      rw [hdm] at h
      exact ih _ m (nodup_keysOf_insertMetric name mm acc hacc) h

theorem decodeMetrics_nodup (doc : Json) (m : List (String × Metric))
    (h : decodeMetrics doc = .ok m) : (keysOf m).Nodup := by
  cases doc with
  | obj fs => exact decodeMetricsGo_nodup fs [] m (by simp [keysOf]) h
  | null => simp [decodeMetrics] at h
  | bool b => simp [decodeMetrics] at h
  | num n => simp [decodeMetrics] at h
  | str s => simp [decodeMetrics] at h
  | arr xs => simp [decodeMetrics] at h

theorem seriesAritiesOk_iff (n : Nat) :
    ∀ l, seriesAritiesOk n l = true ↔ ∀ s ∈ l, (s.label_values.getD []).length = n := by
  intro l
  induction l with
  | nil => simp [seriesAritiesOk]
  | cons s rest ih =>
    by_cases hs : (s.label_values.getD []).length = n
    · simp [seriesAritiesOk, hs, ih]
    · simp [seriesAritiesOk, hs]

theorem seriesArityOk_iff (m : Metric) :
    seriesArityOk m = true ↔
      ∀ s ∈ m.series,
        (s.label_values.getD []).length = (m.label_names.getD []).length := by
  exact seriesAritiesOk_iff _ m.series

theorem hasName_eq_false_iff (name : String) :
    ∀ acc, hasName name acc = false ↔ ∀ f ∈ acc, f.name ≠ name := by
  intro acc
  induction acc with
  | nil => simp [hasName]
  | cons f rest ih =>
    by_cases hf : f.name = name
    · simp [hasName, hf]
    · simp [hasName, hf, ih]

theorem buildFamily_name (name : String) (m : Metric) :
    (buildFamily name m).name = name := rfl

theorem renderGo_ok :
    ∀ (l : List (String × Metric)) (acc : List Family),
      (∀ p ∈ l, hasName p.1 acc = false) → (keysOf l).Nodup →
      (∀ p ∈ l, seriesArityOk p.2 = true) →
      renderGo l acc = .ok (acc ++ l.map fun p => buildFamily p.1 p.2) := by
  intro l
  induction l with
  | nil => intro acc _ _ _; simp [renderGo]
  | cons p rest ih =>
    intro acc hdisj hnodup harity
    obtain ⟨name, m⟩ := p
    have hno : hasName name acc = false := hdisj (name, m) (by simp)
    have hok : seriesArityOk m = true := harity (name, m) (by simp)
    simp only [renderGo, hno, hok, if_false, if_true, Bool.false_eq_true]
    have hnotin : name ∉ keysOf rest := by
      have := hnodup
      simp only [keysOf, List.map_cons, List.nodup_cons] at this
      exact this.1
    have hdisj2 : ∀ q ∈ rest, hasName q.1 (acc ++ [buildFamily name m]) = false := by
      intro q hq
      rw [hasName_eq_false_iff]
      intro f hf
      rcases List.mem_append.mp hf with hf1 | hf2
      · exact ((hasName_eq_false_iff q.1 acc).mp (hdisj q (by simp [hq]))) f hf1
      · have hfq : f = buildFamily name m := by simpa using hf2
        subst hfq
        rw [buildFamily_name]
        intro hcontra
        exact hnotin (hcontra ▸ (by exact List.mem_map_of_mem Prod.fst hq))
    have hnodup2 : (keysOf rest).Nodup := by
      have := hnodup
      simp only [keysOf, List.map_cons, List.nodup_cons] at this
      exact this.2
    have harity2 : ∀ q ∈ rest, seriesArityOk q.2 = true := fun q hq => harity q (by simp [hq])
    rw [ih (acc ++ [buildFamily name m]) hdisj2 hnodup2 harity2]
    simp

theorem renderGo_err :
    ∀ (l : List (String × Metric)) (acc : List Family),
      (∀ p ∈ l, hasName p.1 acc = false) → (keysOf l).Nodup →
      (∃ p ∈ l, seriesArityOk p.2 = false) →
      ∃ name, renderGo l acc = .error (.labelArityMismatch name) := by
  intro l
  induction l with
  | nil => intro acc _ _ hbad; simp at hbad
  | cons p rest ih =>
    intro acc hdisj hnodup hbad
    obtain ⟨name, m⟩ := p
    have hno : hasName name acc = false := hdisj (name, m) (by simp)
    by_cases hok : seriesArityOk m = true
    · simp only [renderGo, hno, hok, if_false, if_true, Bool.false_eq_true]
      have hnotin : name ∉ keysOf rest := by
        have := hnodup
        simp only [keysOf, List.map_cons, List.nodup_cons] at this
        exact this.1
      have hdisj2 : ∀ q ∈ rest, hasName q.1 (acc ++ [buildFamily name m]) = false := by
        intro q hq
        rw [hasName_eq_false_iff]
        intro f hf
        rcases List.mem_append.mp hf with hf1 | hf2
        · exact ((hasName_eq_false_iff q.1 acc).mp (hdisj q (by simp [hq]))) f hf1
        · have hfq : f = buildFamily name m := by simpa using hf2
          subst hfq
          rw [buildFamily_name]
          intro hcontra
          exact hnotin (hcontra ▸ (by exact List.mem_map_of_mem Prod.fst hq))
      have hnodup2 : (keysOf rest).Nodup := by
        have := hnodup
        simp only [keysOf, List.map_cons, List.nodup_cons] at this
        exact this.2
      have hbad2 : ∃ q ∈ rest, seriesArityOk q.2 = false := by
        rcases hbad with ⟨q, hq, hqbad⟩
        rcases List.mem_cons.mp hq with hq1 | hq2
        · rw [hq1] at hqbad; rw [hqbad] at hok; cases hok
        · exact ⟨q, hq2, hqbad⟩
      exact ih (acc ++ [buildFamily name m]) hdisj2 hnodup2 hbad2
    · refine ⟨name, ?_⟩
      have hfalse : seriesArityOk m = false := by
        cases h : seriesArityOk m
        · rfl
        · exact absurd h hok
      simp [renderGo, hno, hfalse]

theorem charListLe_total : ∀ as bs, charListLe as bs = false → charListLe bs as = true := by
  intro as
  induction as with
  | nil => intro bs h; simp [charListLe] at h
  | cons a as ih =>
    intro bs h
    cases bs with
    | nil => rfl
    | cons b bs =>
      simp only [charListLe] at h ⊢
      rcases Nat.lt_trichotomy a.toNat b.toNat with hlt | heq | hgt
      · rw [if_pos hlt] at h; cases h
      · rw [if_neg (by omega), if_neg (by omega)] at h
        rw [if_neg (by omega), if_neg (by omega)]
        exact ih bs h
      · rw [if_pos hgt]

theorem charListLe_trans :
    ∀ as bs cs, charListLe as bs = true → charListLe bs cs = true →
      charListLe as cs = true := by
  intro as
  induction as with
  | nil => intro bs cs _ _; rfl
  | cons a as ih =>
    intro bs cs hab hbc
    cases bs with
    | nil => simp [charListLe] at hab
    | cons b bs =>
      cases cs with
      | nil => simp [charListLe] at hbc
      | cons c cs =>
        simp only [charListLe] at hab hbc ⊢
        rcases Nat.lt_trichotomy a.toNat b.toNat with h1 | h1 | h1
        · rcases Nat.lt_trichotomy b.toNat c.toNat with h2 | h2 | h2
          · rw [if_pos (Nat.lt_trans h1 h2)]
          · rw [if_pos (by omega)]
          · rw [if_neg (by omega), if_pos h2] at hbc; cases hbc
        · rcases Nat.lt_trichotomy b.toNat c.toNat with h2 | h2 | h2
          · rw [if_pos (by omega)]
          · rw [if_neg (by omega), if_neg (by omega)]
            rw [if_neg (by omega), if_neg (by omega)] at hab
            rw [if_neg (by omega), if_neg (by omega)] at hbc
            exact ih bs cs hab hbc
          · rw [if_neg (by omega), if_pos h2] at hbc; cases hbc
        · rw [if_neg (by omega), if_pos h1] at hab; cases hab

theorem charListLe_antisymm :
    ∀ as bs, charListLe as bs = true → charListLe bs as = true → as = bs := by
  intro as
  induction as with
  | nil =>
    intro bs h1 h2
    cases bs with
    | nil => rfl
    | cons b bs => simp [charListLe] at h2
  | cons a as ih =>
    intro bs h1 h2
    cases bs with
    | nil => simp [charListLe] at h1
    | cons b bs =>
      simp only [charListLe] at h1 h2
      rcases Nat.lt_trichotomy a.toNat b.toNat with h | h | h
      · rw [if_neg (by omega), if_pos h] at h2; cases h2
      · rw [if_neg (by omega), if_neg (by omega)] at h1
        rw [if_neg (by omega), if_neg (by omega)] at h2
        have hab : a = b := Char.ext (UInt32.ext h)
        rw [hab, ih bs h1 h2]
      · rw [if_neg (by omega), if_pos h] at h1
        cases h1

theorem strLe_total (a b : String) (h : strLe a b = false) : strLe b a = true :=
  charListLe_total a.data b.data h

theorem strLe_trans (a b c : String) (h1 : strLe a b = true) (h2 : strLe b c = true) :
    strLe a c = true :=
  charListLe_trans a.data b.data c.data h1 h2

theorem strLe_antisymm (a b : String) (h1 : strLe a b = true) (h2 : strLe b a = true) :
    a = b := by
  have hdata : a.data = b.data := charListLe_antisymm a.data b.data h1 h2
  cases a with
  | mk da =>
    cases b with
    | mk db =>
      simp only [String.data] at hdata
      rw [hdata]

theorem insertFam_perm (f : Family) : ∀ l, (insertFam f l).Perm (f :: l) := by
  intro l
  induction l with
  | nil => simp [insertFam]
  | cons g rest ih =>
    by_cases hle : strLe f.name g.name = true
    · simp [insertFam, hle]
    · have hfb : strLe f.name g.name = false := by
        cases hsa : strLe f.name g.name
        · rfl
        · exact absurd hsa hle
      simp only [insertFam]
      rw [if_neg (by rw [hfb]; simp)]
      exact (ih.cons g).trans (List.Perm.swap f g rest)

theorem sortFams_perm : ∀ l, (sortFams l).Perm l := by
  intro l
  induction l with
  | nil => simp [sortFams]
  | cons f rest ih =>
    exact (insertFam_perm f (sortFams rest)).trans (ih.cons f)

theorem insertFam_pairwise (f : Family) :
    ∀ l, l.Pairwise famLe → (insertFam f l).Pairwise famLe := by
  intro l
  induction l with
  | nil => intro _; simp [insertFam, List.Pairwise]
  | cons g rest ih =>
    intro hp
    obtain ⟨hg, hrest⟩ := List.pairwise_cons.mp hp
    by_cases hle : strLe f.name g.name = true
    · simp only [insertFam, if_pos hle]
      refine List.pairwise_cons.mpr ⟨?_, hp⟩
      intro x hx
      rcases List.mem_cons.mp hx with hx1 | hx2
      · rw [hx1]; exact hle
      · exact strLe_trans f.name g.name x.name hle (hg x hx2)
    · simp only [insertFam, if_neg hle]
      refine List.pairwise_cons.mpr ⟨?_, ih hrest⟩
      intro x hx
      have hmem : x ∈ f :: rest := (insertFam_perm f rest).mem_iff.mp hx
      have hfb : strLe f.name g.name = false := by
        cases hsa : strLe f.name g.name
        · rfl
        · exact absurd hsa hle
      rcases List.mem_cons.mp hmem with hx1 | hx2
      · rw [hx1]; exact strLe_total f.name g.name hfb
      · exact hg x hx2

theorem sortFams_pairwise : ∀ l, (sortFams l).Pairwise famLe := by
  intro l
  induction l with
  | nil => simp [sortFams, List.Pairwise]
  | cons f rest ih => exact insertFam_pairwise f (sortFams rest) ih

theorem sorted_nodup_perm_eq :
    ∀ l₁ l₂ : List Family, l₁.Pairwise famLe → l₂.Pairwise famLe →
      (l₁.map Family.name).Nodup → l₁.Perm l₂ → l₁ = l₂ := by
  intro l₁
  induction l₁ with
  | nil =>
    intro l₂ _ _ _ hp
    have := hp.symm.eq_nil
    simp [this]
  | cons a t₁ ih =>
    intro l₂ hs₁ hs₂ hn hp
    cases l₂ with
    | nil =>
      have := hp.eq_nil
      cases this
    | cons b t₂ =>
      have hab : a = b := by
        have hamem : a ∈ b :: t₂ := hp.mem_iff.mp (by simp)
        have hbmem : b ∈ a :: t₁ := hp.mem_iff.mpr (by simp)
        rcases List.mem_cons.mp hamem with h1 | h1
        · exact h1
        rcases List.mem_cons.mp hbmem with h2 | h2
        · exact h2.symm
        have hle1 : famLe a b := (List.pairwise_cons.mp hs₁).1 b h2
        have hle2 : famLe b a := (List.pairwise_cons.mp hs₂).1 a h1
        have hname : a.name = b.name := strLe_antisymm a.name b.name hle1 hle2
        exfalso
        have hmem : a.name ∈ t₁.map Family.name := by
          rw [hname]
          exact List.mem_map_of_mem Family.name h2
        have hnd := hn
        simp only [List.map_cons, List.nodup_cons] at hnd
        exact hnd.1 hmem
      subst hab
      have ht : t₁.Perm t₂ := hp.cons_inv
      have hnd := hn
      simp only [List.map_cons, List.nodup_cons] at hnd
      have heq := ih t₂ (List.pairwise_cons.mp hs₁).2 (List.pairwise_cons.mp hs₂).2 hnd.2 ht
      rw [heq]

theorem sortFams_eq_of_perm (l₁ l₂ : List Family) (hp : l₁.Perm l₂)
    (hn : (l₁.map Family.name).Nodup) : sortFams l₁ = sortFams l₂ :=
  sorted_nodup_perm_eq _ _ (sortFams_pairwise l₁) (sortFams_pairwise l₂)
    (((sortFams_perm l₁).map Family.name).nodup_iff.mpr hn)
    ((sortFams_perm l₁).trans (hp.trans (sortFams_perm l₂).symm))

theorem render_ok_encode (l : List (String × Metric)) (hn : (keysOf l).Nodup)
    (ha : ∀ p ∈ l, seriesArityOk p.2 = true) :
    render l = .ok (encodeFamilies (l.map fun p => buildFamily p.1 p.2)) := by
  unfold render
  rw [renderGo_ok l [] (fun p _ => rfl) hn ha]
  simp [Except.map]

theorem render_arity_err (l : List (String × Metric)) (hn : (keysOf l).Nodup)
    (hbad : ∃ p ∈ l, seriesArityOk p.2 = false) :
    ∃ name, render l = .error (.labelArityMismatch name) := by
  obtain ⟨name, hgo⟩ := renderGo_err l [] (fun p _ => rfl) hn hbad
  refine ⟨name, ?_⟩
  unfold render
  rw [hgo]
  rfl

theorem render_eq_of_perm (m l₁ l₂ : List (String × Metric)) (s : String)
    (hn : (keysOf m).Nodup) (h₁ : l₁.Perm m) (h₂ : l₂.Perm m)
    (hr : render l₁ = .ok s) : render l₂ = .ok s := by
  have hn₁ : (keysOf l₁).Nodup := ((h₁.map Prod.fst).nodup_iff).mpr hn
  have hn₂ : (keysOf l₂).Nodup := ((h₂.map Prod.fst).nodup_iff).mpr hn
  have ha₁ : ∀ p ∈ l₁, seriesArityOk p.2 = true := by
    by_contra hcon
    push_neg at hcon
    obtain ⟨p, hp, hpf⟩ := hcon
    have hfalse : seriesArityOk p.2 = false := by
      cases hsa : seriesArityOk p.2
      · rfl
      · exact absurd hsa hpf
    obtain ⟨nm, herr⟩ := render_arity_err l₁ hn₁ ⟨p, hp, hfalse⟩
    rw [herr] at hr
    cases hr
  have ha : ∀ p ∈ m, seriesArityOk p.2 = true := fun p hp => ha₁ p (h₁.mem_iff.mpr hp)
  have ha₂ : ∀ p ∈ l₂, seriesArityOk p.2 = true := fun p hp => ha p (h₂.mem_iff.mp hp)
  rw [render_ok_encode l₁ hn₁ ha₁] at hr
  cases hr
  rw [render_ok_encode l₂ hn₂ ha₂]
  congr 1
  unfold encodeFamilies
  have hperm : (l₂.map fun p => buildFamily p.1 p.2).Perm (l₁.map fun p => buildFamily p.1 p.2) :=
    (h₂.map fun p => buildFamily p.1 p.2).trans ((h₁.map fun p => buildFamily p.1 p.2).symm)
  have hfn : ((l₂.map fun p => buildFamily p.1 p.2).map Family.name).Nodup := by
    rw [List.map_map]
    exact hn₂
  rw [sortFams_eq_of_perm _ _ hperm hfn]

theorem alookup_cons_ne {α : Type} (key k : String) (v : α) (fs : List (String × α))
    (h : k ≠ key) : alookup key ((k, v) :: fs) = alookup key fs := by
  simp only [alookup, if_neg h]

theorem alookup_cons_self {α : Type} (key : String) (v : α) (fs : List (String × α)) :
    alookup key ((key, v) :: fs) = some v := by
  simp [alookup]

/-! ## Claims -/

/-- Claim C1, counterexample.  A probe request whose module program
fails to evaluate makes `App::probe_handler` panic (`.unwrap()` on the
`eval` result, src/main.rs line 515) instead of producing an HTTP
error response: the claim that no input causes the Evaluate stage to
panic is false on the code. -/
theorem probe_eval_error_panics_cx :
    (probeHandler c1Env [("m", c1Module)] [("module", "m"), ("target", "http://x")]).1
      = .panicked ("err boom") := rfl

/-- Claim C1, amended.  Failures up to module resolution, URI parsing
and the fetch are turned into typed rejections, and a JSON parse
failure of a body declared `application/json` is rejected as
`TargetJSONParse`; but two failure branches panic instead of becoming
HTTP error responses: `read_to_string(..).unwrap()` on a non-UTF-8
non-JSON body (src/main.rs line 506), and the unwrapped
`module.state().unwrap().eval(&data).unwrap()` call (line 515) when
module state construction or evaluation/decode/render fails.  Every
panic of the probe handler occurs after a successful fetch and stems
from one of these two unwraps. -/
theorem probe_panic_only_at_eval (env : ProbeEnv)
    (modules : List (String × ConfigModuleRt)) (params : List (String × String))
    (h : (probeHandler env modules params).1.isPanic = true) :
    ∃ name m target resp, alookup "module" params = some name
      ∧ alookup name modules = some m
      ∧ alookup "target" params = some target
      ∧ env.fetch target = .ok resp
      ∧ (buildInputBody env resp = .panicked
         ∨ ∃ body e, buildInputBody env resp = .ok body
             ∧ runModule m (serializeInput body) = .error e) := by
  unfold probeHandler at h
  cases h1 : alookup "module" params with
  | none => simp only [h1] at h; simp [Outcome.isPanic] at h
  | some name =>
    simp only [h1] at h
    cases h2 : alookup name modules with
    | none => simp only [h2] at h; simp [Outcome.isPanic] at h
    | some m =>
      simp only [h2] at h
      cases h3 : alookup "target" params with
      | none => simp only [h3] at h; simp [Outcome.isPanic] at h
      | some target =>
        simp only [h3] at h
        by_cases h4 : env.validUri target = true
        · rw [if_pos h4] at h
          cases h5 : env.fetch target with
          | error e => simp only [h5] at h; simp [Outcome.isPanic] at h
          | ok resp =>
            simp only [h5] at h
            cases h6 : buildInputBody env resp with
            | parseErr => simp only [h6] at h; simp [Outcome.isPanic] at h
            | panicked => exact ⟨name, m, target, resp, rfl, h2, rfl, h5, Or.inl h6⟩
            | ok body =>
              simp only [h6] at h
              cases h7 : runModule m (serializeInput body) with
              | error e =>
                exact ⟨name, m, target, resp, rfl, h2, rfl, h5,
                  Or.inr ⟨body, e, h6, h7⟩⟩
              | ok s => simp only [h7] at h; simp [Outcome.isPanic] at h
        · rw [if_neg h4] at h
          simp [Outcome.isPanic] at h

/-- Witness for the amended claim C1 at two concrete panicking
requests: one whose module program fails to evaluate, one whose
fetched body is non-UTF-8. -/
theorem probe_panic_only_at_eval_witness :
    (∃ name m target resp,
      alookup "module" [("module", "m"), ("target", "http://x")] = some name
      ∧ alookup name [("m", c1Module)] = some m
      ∧ alookup "target" [("module", "m"), ("target", "http://x")] = some target
      ∧ c1Env.fetch target = .ok resp
      ∧ (buildInputBody c1Env resp = .panicked
         ∨ ∃ body e, buildInputBody c1Env resp = .ok body
             ∧ runModule m (serializeInput body) = .error e))
    ∧ (∃ name m target resp,
      alookup "module" [("module", "m"), ("target", "http://x")] = some name
      ∧ alookup name [("m", c1Module)] = some m
      ∧ alookup "target" [("module", "m"), ("target", "http://x")] = some target
      ∧ c1EnvBad.fetch target = .ok resp
      ∧ (buildInputBody c1EnvBad resp = .panicked
         ∨ ∃ body e, buildInputBody c1EnvBad resp = .ok body
             ∧ runModule m (serializeInput body) = .error e)) :=
  ⟨probe_panic_only_at_eval c1Env [("m", c1Module)]
      [("module", "m"), ("target", "http://x")] rfl,
   probe_panic_only_at_eval c1EnvBad [("m", c1Module)]
      [("module", "m"), ("target", "http://x")] rfl⟩

/-- Claim C2, counterexample.  With the `target` parameter absent and
a `module` parameter naming an unknown module, the handler reports
`ModuleNotFound`, not `MissingParameter("target")`: module resolution
happens before the `target` parameter is read (src/main.rs lines
460–476), so parameter parsing does not complete before module
resolution. -/
theorem probe_target_after_resolve_cx :
    (probeHandler c2Env [] [("module", "missing")]).1
        = .reject (.moduleNotFound "missing")
    ∧ (probeHandler c2Env [] [("module", "missing")]).1
        ≠ .reject (.missingParameter "target") := by
  constructor
  · rfl
  · rw [show (probeHandler c2Env [] [("module", "missing")]).1
        = .reject (.moduleNotFound "missing") from rfl]
    decide

/-- Claim C2, amended.  When the `target` query parameter is absent,
the handler returns `MissingParameter("target")` provided the
`module` parameter is present and resolves to a configured module;
the check order is `module` parameter → module resolution → `target`
parameter. -/
theorem probe_missing_target_known_module (env : ProbeEnv)
    (modules : List (String × ConfigModuleRt)) (params : List (String × String))
    (name : String) (m : ConfigModuleRt)
    (h1 : alookup "module" params = some name)
    (h2 : alookup name modules = some m)
    (h3 : alookup "target" params = none) :
    probeHandler env modules params = (.reject (.missingParameter "target"), false) := by
  unfold probeHandler
  simp only [h1, h2, h3]

/-- Witness for the amended claim C2. -/
theorem probe_missing_target_known_module_witness :
    probeHandler c2Env [("m", c2Module)] [("module", "m")]
      = (.reject (.missingParameter "target"), false) :=
  probe_missing_target_known_module c2Env [("m", c2Module)] [("module", "m")]
    "m" c2Module rfl rfl rfl

/-- Claim C3.  A probe request naming a module absent from the
registry is rejected with `ModuleNotFound` and the target is never
fetched: the result holds for every environment, and the fetch flag
of the handler is false. -/
theorem probe_unknown_module_no_fetch (env : ProbeEnv)
    (modules : List (String × ConfigModuleRt)) (params : List (String × String))
    (name : String)
    (h1 : alookup "module" params = some name)
    (h2 : alookup name modules = none) :
    probeHandler env modules params = (.reject (.moduleNotFound name), false) := by
  unfold probeHandler
  simp only [h1, h2]

/-- Witness for claim C3 at the spec's concrete request
`/probe?module=missing&target=http://x`. -/
theorem probe_unknown_module_no_fetch_witness :
    probeHandler c3Env [] [("module", "missing"), ("target", "http://x")]
      = (.reject (.moduleNotFound "missing"), false) :=
  probe_unknown_module_no_fetch c3Env [] [("module", "missing"), ("target", "http://x")]
    "missing" rfl rfl

/-- Claim C4.  For every decoded manifest, rendering succeeds when
every series carries exactly as many label values as its metric
declares label names (the zero/zero case included), and fails with a
`LabelArityMismatch` error — an error result, not a crash — whenever
some series' label-value count differs.  (The label handling of the
`prometheus` crate is modelled from the spec, §4.2.) -/
theorem render_arity_invariant (doc : Json) (m : List (String × Metric))
    (hdec : decodeMetrics doc = .ok m) :
    ((∀ p ∈ m, ∀ s ∈ p.2.series,
        (s.label_values.getD []).length = (p.2.label_names.getD []).length) →
      ∃ out, render m = .ok out)
    ∧ ((∃ p ∈ m, ∃ s ∈ p.2.series,
        (s.label_values.getD []).length ≠ (p.2.label_names.getD []).length) →
      ∃ name, render m = .error (.labelArityMismatch name)) := by
  have hn := decodeMetrics_nodup doc m hdec
  constructor
  · intro hall
    refine ⟨_, render_ok_encode m hn ?_⟩
    intro p hp
    rw [seriesArityOk_iff]
    exact hall p hp
  · intro hbad
    obtain ⟨p, hp, s, hs, hneq⟩ := hbad
    apply render_arity_err m hn
    refine ⟨p, hp, ?_⟩
    cases hsa : seriesArityOk p.2 with
    | false => rfl
    | true => exact absurd ((seriesArityOk_iff p.2).mp hsa s hs) hneq

/-- Witness for claim C4: a label-free manifest renders, a manifest
declaring one label name but providing no label values fails with the
arity error. -/
theorem render_arity_invariant_witness :
    (∃ out, render c4OkM = .ok out)
    ∧ (∃ name, render c4BadM = .error (.labelArityMismatch name)) :=
  ⟨(render_arity_invariant c4OkDoc c4OkM rfl).1 (by decide),
   (render_arity_invariant c4BadDoc c4BadM rfl).2 (by decide)⟩

/-- Claim C5, counterexample.  An invalid pattern given to the
`regexMatch` native callback is not propagated to the caller as an
error result: the callback body is `Regex::new(regex).unwrap()`
(src/main.rs line 138), a host panic. -/
theorem regex_invalid_pattern_err_cx :
    regexMatchNative "(" "x" = .panicked
    ∧ (regexMatchNative "(" "x").isErrResult = false :=
  ⟨rfl, rfl⟩

/-- Claim C5, amended.  An invalid pattern makes the native callback
panic — a fatal outcome for that call, never a silently returned
empty result — rather than returning an evaluation error. -/
theorem regex_invalid_pattern_panics (pattern subject : String)
    (h : compilePattern pattern = none) :
    regexMatchNative pattern subject = .panicked
    ∧ regexMatchNative pattern subject ≠ .ok [] := by
  have heq : regexMatchNative pattern subject = .panicked := by
    unfold regexMatchNative
    rw [h]
  refine ⟨heq, ?_⟩
  rw [heq]
  intro hc
  cases hc

/-- Witness for the amended claim C5 at the concrete invalid
pattern. -/
theorem regex_invalid_pattern_panics_witness :
    regexMatchNative "(" "x" = .panicked ∧ regexMatchNative "(" "x" ≠ .ok [] :=
  regex_invalid_pattern_panics "(" "x" rfl

/-- Claim C6.  `regexMatch("(a)(b)?", "ab a")` yields exactly two
matches: the first with captures `["ab", "a", "b"]`, the second with
the null marker in the position of the unmatched second group. -/
theorem regex_match_example :
    regexMatchNative "(a)(b)?" "ab a"
      = .ok [[some "ab", some "a", some "b"], [some "a", some "a", none]] := rfl

/-- Claim C7.  A metric object omitting `help` renders with the fixed
placeholder help text, and omitting `label_names` or `series` decodes
successfully and produces output identical to supplying those fields
as empty arrays. -/
theorem decoder_defaults (name : String) (fs : List (String × Json)) (s : String)
    (hHelp : alookup "help" fs = none)
    (hLn : alookup "label_names" fs = none)
    (hSr : alookup "series" fs = none)
    (hOk : pipelineRender (.obj [(name, .obj fs)]) = .ok s) :
    (∃ rest, s = "# HELP " ++ name ++ " " ++ placeholderHelp ++ "\n" ++ rest)
    ∧ pipelineRender (.obj [(name, .obj (("label_names", Json.arr []) :: fs))]) = .ok s
    ∧ pipelineRender (.obj [(name, .obj (("series", Json.arr []) :: fs))]) = .ok s := by
  cases ht : decodeMetricType (alookup "type" fs) with
  | error e =>
    exfalso
    have hdm : decodeMetric (.obj fs) = .error e := by
      simp only [decodeMetric]
      rw [ht]
    have hdg : decodeMetrics (.obj [(name, .obj fs)]) = .error e := by
      simp only [decodeMetrics, decodeMetricsGo]
      rw [hdm]
    simp only [pipelineRender, hdg] at hOk
    cases hOk
  | ok t =>
    cases t
    have hdm : decodeMetric (.obj fs) = .ok ⟨none, [], none, .Gauge⟩ := by
      simp only [decodeMetric]
      rw [ht, hLn, hSr, hHelp]
      rfl
    have hdg : decodeMetrics (.obj [(name, .obj fs)])
        = .ok [(name, (⟨none, [], none, .Gauge⟩ : Metric))] := by
      simp only [decodeMetrics, decodeMetricsGo]
      rw [hdm]
      rfl
    have hrender : render [(name, (⟨none, [], none, .Gauge⟩ : Metric))]
        = .ok (encodeFamily (buildFamily name ⟨none, [], none, .Gauge⟩)) := rfl
    have hs : s = encodeFamily (buildFamily name ⟨none, [], none, .Gauge⟩) := by
      simp only [pipelineRender, hdg, hrender] at hOk
      cases hOk
      rfl
    have hdm2 : decodeMetric (.obj (("label_names", Json.arr []) :: fs))
        = .ok ⟨some [], [], none, .Gauge⟩ := by
      simp only [decodeMetric]
      rw [alookup_cons_ne "type" "label_names" (Json.arr []) fs (by decide), ht,
        alookup_cons_self "label_names" (Json.arr []) fs,
        alookup_cons_ne "series" "label_names" (Json.arr []) fs (by decide), hSr,
        alookup_cons_ne "help" "label_names" (Json.arr []) fs (by decide), hHelp]
      rfl
    have hdm3 : decodeMetric (.obj (("series", Json.arr []) :: fs))
        = .ok ⟨none, [], none, .Gauge⟩ := by
      simp only [decodeMetric]
      rw [alookup_cons_ne "type" "series" (Json.arr []) fs (by decide), ht,
        alookup_cons_ne "label_names" "series" (Json.arr []) fs (by decide), hLn,
        alookup_cons_self "series" (Json.arr []) fs,
        alookup_cons_ne "help" "series" (Json.arr []) fs (by decide), hHelp]
      rfl
    have hdg2 : decodeMetrics (.obj [(name, .obj (("label_names", Json.arr []) :: fs))])
        = .ok [(name, (⟨some [], [], none, .Gauge⟩ : Metric))] := by
      simp only [decodeMetrics, decodeMetricsGo]
      rw [hdm2]
      rfl
    have hdg3 : decodeMetrics (.obj [(name, .obj (("series", Json.arr []) :: fs))])
        = .ok [(name, (⟨none, [], none, .Gauge⟩ : Metric))] := by
      simp only [decodeMetrics, decodeMetricsGo]
      rw [hdm3]
      rfl
    have hrender2 : render [(name, (⟨some [], [], none, .Gauge⟩ : Metric))]
        = .ok (encodeFamily (buildFamily name ⟨none, [], none, .Gauge⟩)) := rfl
    refine ⟨⟨familyTail (buildFamily name ⟨none, [], none, .Gauge⟩), by rw [hs]; rfl⟩, ?_, ?_⟩
    · simp only [pipelineRender, hdg2, hrender2]
      rw [hs]
    · simp only [pipelineRender, hdg3, hrender]
      rw [hs]

/-- Witness for claim C7 at a minimal metric object carrying only its
`type` field. -/
theorem decoder_defaults_witness :
    (∃ rest,
      "# HELP m jsonnet-exporter: Metric help is missing, consider adding a help text to the module config.\n# TYPE m gauge\n"
        = "# HELP " ++ "m" ++ " " ++ placeholderHelp ++ "\n" ++ rest)
    ∧ pipelineRender (.obj [("m", .obj [("label_names", Json.arr []),
        ("type", Json.str "gauge")])])
      = .ok "# HELP m jsonnet-exporter: Metric help is missing, consider adding a help text to the module config.\n# TYPE m gauge\n"
    ∧ pipelineRender (.obj [("m", .obj [("series", Json.arr []),
        ("type", Json.str "gauge")])])
      = .ok "# HELP m jsonnet-exporter: Metric help is missing, consider adding a help text to the module config.\n# TYPE m gauge\n" :=
  decoder_defaults "m" [("type", Json.str "gauge")]
    "# HELP m jsonnet-exporter: Metric help is missing, consider adding a help text to the module config.\n# TYPE m gauge\n"
    rfl rfl rfl rfl

/-- Claim C8.  Decoding and rendering
`{"requests_total": {"type": "gauge", "series": [{"value": 5}]}}`
produces exactly the `# HELP` line with the placeholder help, the
`# TYPE requests_total gauge` line, and the single unlabelled sample
line `requests_total 5`. -/
theorem end_to_end_requests_total :
    pipelineRender (.obj [("requests_total", .obj [("type", .str "gauge"),
        ("series", .arr [.obj [("value", .num 5)]])])])
      = .ok "# HELP requests_total jsonnet-exporter: Metric help is missing, consider adding a help text to the module config.\n# TYPE requests_total gauge\nrequests_total 5\n" :=
  rfl

/-- Claim C9.  Two-run determinism of the decode-and-render pipeline:
two module instances evaluating the same decoded manifest — each
iterating its metric map in an arbitrary order — produce byte-identical
exposition text, including for manifests with more than one metric
(families are gathered in a canonical order by name). -/
theorem pipeline_two_run_determinism (doc : Json) (m l₁ l₂ : List (String × Metric))
    (s : String) (hdec : decodeMetrics doc = .ok m)
    (h₁ : l₁.Perm m) (h₂ : l₂.Perm m)
    (hr : render l₁ = .ok s) : render l₂ = .ok s :=
  render_eq_of_perm m l₁ l₂ s (decodeMetrics_nodup doc m hdec) h₁ h₂ hr

/-- Witness for claim C9: the two-metric document rendered from both
iteration orders yields the same bytes. -/
theorem pipeline_two_run_determinism_witness :
    render [("a_metric", c9MA), ("b_metric", c9MB)]
      = .ok "# HELP a_metric h1\n# TYPE a_metric gauge\na_metric 1\n# HELP b_metric h2\n# TYPE b_metric gauge\nb_metric 2\n" :=
  pipeline_two_run_determinism c9Doc [("b_metric", c9MB), ("a_metric", c9MA)]
    [("b_metric", c9MB), ("a_metric", c9MA)] [("a_metric", c9MA), ("b_metric", c9MB)]
    "# HELP a_metric h1\n# TYPE a_metric gauge\na_metric 1\n# HELP b_metric h2\n# TYPE b_metric gauge\nb_metric 2\n"
    rfl (List.Perm.refl _) (by decide) rfl

/-- Claim C10, counterexample.  The in-memory resolver's
`load_file_contents` operation answers every request — even the single
(identity, content) pair it was constructed with — by a host panic
(src/main.rs line 118), not a structured not-found error, so the claim
that either operation rejects other requests with a structured error
and never panics is false on the code. -/
theorem resolver_load_always_panics_cx :
    MemoryImportResolver.load_file_contents
        ⟨"inline.jsonnet", "local x = 1; x"⟩ "inline.jsonnet" = .panicked
    ∧ MemoryImportResolver.load_file_contents
        ⟨"inline.jsonnet", "local x = 1; x"⟩ "other.jsonnet" = .panicked :=
  ⟨rfl, rfl⟩

/-- Claim C10, amended.  `resolve_file` accepts exactly the stored
path and answers every other resolution request with a structured
not-found error, never a panic; `load_file_contents`, by contrast,
panics on every request (its body is unreachable from supplied
jsonnet per its source comment). -/
theorem resolver_operations (r : MemoryImportResolver) (importer target q : String) :
    (target = r.path → r.resolve_file importer target = .resolved r.path)
    ∧ (target ≠ r.path → r.resolve_file importer target = .importNotFound importer target)
    ∧ r.resolve_file importer target ≠ .panicked
    ∧ r.load_file_contents q = .panicked := by
  refine ⟨?_, ?_, ?_, rfl⟩
  · intro h
    unfold MemoryImportResolver.resolve_file
    rw [if_pos h]
  · intro h
    unfold MemoryImportResolver.resolve_file
    rw [if_neg h]
  · unfold MemoryImportResolver.resolve_file
    by_cases h : target = r.path
    · rw [if_pos h]
      intro hc
      cases hc
    · rw [if_neg h]
      intro hc
      cases hc

/-- Witness for the amended claim C10 at a concrete resolver. -/
theorem resolver_operations_witness :
    MemoryImportResolver.resolve_file ⟨"inline.jsonnet", "c"⟩ "eval.jsonnet" "inline.jsonnet"
        = .resolved "inline.jsonnet"
    ∧ MemoryImportResolver.resolve_file ⟨"inline.jsonnet", "c"⟩ "eval.jsonnet" "lib.jsonnet"
        = .importNotFound "eval.jsonnet" "lib.jsonnet"
    ∧ MemoryImportResolver.load_file_contents ⟨"inline.jsonnet", "c"⟩ "inline.jsonnet"
        = .panicked :=
  ⟨(resolver_operations ⟨"inline.jsonnet", "c"⟩ "eval.jsonnet" "inline.jsonnet"
      "inline.jsonnet").1 rfl,
   (resolver_operations ⟨"inline.jsonnet", "c"⟩ "eval.jsonnet" "lib.jsonnet"
      "inline.jsonnet").2.1 (by decide),
   (resolver_operations ⟨"inline.jsonnet", "c"⟩ "eval.jsonnet" "lib.jsonnet"
      "inline.jsonnet").2.2.2⟩

end JsonnetExporter
